import Mathlib

/-!
Verification development for the cmdproxy command-execution proxy.

The definitions below are a shallow embedding of the repository core:
the `Param` algebra (src/params.rs), the request/response DTOs
(src/protocol.rs), the invoke middlewares for both ends
(src/middles/invoke: mod.rs, client_end.rs, server_end.rs), the serde
middlewares (src/middles/serde/{client_end,server_end}.rs), the
middleware-stack combinator (src/codegen.rs), and the two facades
(src/client.rs, src/server.rs).

Modelling conventions:
* Rust `HashMap<String, _>` becomes an association list
  `List (String × _)`; `keys()` / `values()` iterating the same map in
  the same order becomes `map Prod.fst` / `map Prod.snd` of that list.
* `anyhow::Result` becomes `Except RErr`; a Rust panic
  (`unreachable!`, `.expect`, `.unwrap`) is the distinguished
  `RErr.panicked` error, which no middleware catches.
* External effects (OS environment, GridFS bucket transfers, the
  broker, process spawning) are modelled by boolean/option-valued
  oracles carried in a configuration record, and by explicit state
  (guard stacks, passed-env map, uploaded cloud keys, temp counter).
* `futures::future::join_all(..).collect::<Result<_>>()` runs every
  future and keeps the first error; `resolveAllG` mirrors that: every
  element is processed (state threads through all of them) and the
  first error is returned.
-/

set_option autoImplicit false

mutual
/-- The `Param` tagged sum from src/params.rs.  `FormatParam` owns a map of
subordinate params; the map is embedded as the mutually inductive
association list `FormatArgs` so that all functions below are structural
and computable. -/
inductive Param where
  | strParam (value : String)
  | envParam (name : String)
  | remoteEnvParam (name : String)
  | cmdNameParam (name : String)
  | cmdPathParam (path : String)
  | inLocalFileParam (filepath hostname : String)
  | outLocalFileParam (filepath hostname : String)
  | inCloudFileParam (filepath hostname : String)
  | outCloudFileParam (filepath hostname : String)
  | formatParam (tmpl : String) (args : FormatArgs)

/-- Association list of named `Param` arguments owned by a `formatParam`. -/
inductive FormatArgs where
  | nil
  | cons (key : String) (value : Param) (rest : FormatArgs)
end

/-- View of a `FormatArgs` map as an association list. -/
def FormatArgs.toList : FormatArgs → List (String × Param)
  | .nil => []
  | .cons k v r => (k, v) :: r.toList

/-- Keys of a `FormatArgs` map, in iteration order. -/
def FormatArgs.keys : FormatArgs → List String
  | .nil => []
  | .cons k _ r => k :: r.keys

/-- Values of a `FormatArgs` map, in iteration order. -/
def FormatArgs.values : FormatArgs → List Param
  | .nil => []
  | .cons _ v r => v :: r.values

/-- Param::is_input from src/params.rs. -/
def Param.is_input : Param → Bool
  | .inLocalFileParam .. | .inCloudFileParam .. => true
  | _ => false

/-- Param::is_output from src/params.rs. -/
def Param.is_output : Param → Bool
  | .outLocalFileParam .. | .outCloudFileParam .. => true
  | _ => false

/-- Param::is_local from src/params.rs. -/
def Param.is_local : Param → Bool
  | .inLocalFileParam .. | .outLocalFileParam .. => true
  | _ => false

/-- Param::is_cloud from src/params.rs. -/
def Param.is_cloud : Param → Bool
  | .inCloudFileParam .. | .outCloudFileParam .. => true
  | _ => false

/-- Param::hostname from src/params.rs; `none` models the
`unreachable!()` panic on non-file variants. -/
def Param.hostname : Param → Option String
  | .inLocalFileParam _ h | .outLocalFileParam _ h
  | .inCloudFileParam _ h | .outCloudFileParam _ h => some h
  | _ => none

/-- Param::filepath from src/params.rs; `none` models the
`unreachable!()` panic on non-file variants. -/
def Param.filepath : Param → Option String
  | .inLocalFileParam f _ | .outLocalFileParam f _
  | .inCloudFileParam f _ | .outCloudFileParam f _ => some f
  | _ => none

/-- Param::as_cloud from src/params.rs lines 157-169.  The local file
variants map to their cloud counterparts keeping both fields, the cloud
variants are returned unchanged, and every other variant hits
`unreachable!()`, modelled as `none`. -/
def Param.as_cloud : Param → Option Param
  | .inLocalFileParam f h => some (.inCloudFileParam f h)
  | .outLocalFileParam f h => some (.outCloudFileParam f h)
  | .inCloudFileParam f h => some (.inCloudFileParam f h)
  | .outCloudFileParam f h => some (.outCloudFileParam f h)
  | _ => none

/-- Param::cloud_url from src/params.rs: `@<hostname>:<filepath>`. -/
def cloudUrl (hostname filepath : String) : String :=
  "@" ++ hostname ++ ":" ++ filepath

/-- An `anyhow`-style error: `err` is an ordinary error value travelling
through `Result`, while `panicked` models a Rust panic
(`unreachable!`, `.expect`, `.unwrap`), which no middleware catches. -/
inductive RErr where
  | err (msg : String)
  | panicked (msg : String)
deriving DecidableEq, Repr

/-- The request/recipe shape consumed by guard_run_args in
src/middles/invoke/mod.rs: fields command, args, cwd, env, stdout,
stderr.  `RunRequest = RunSpec Param` before the server-end invoke
stage and `RunRecipe = RunSpec String` after it. -/
structure RunSpec (P : Type) where
  command : P
  args : List P
  cwd : Option String := none
  env : Option (List (String × P)) := none
  stdout : Option P := none
  stderr : Option P := none

/-- RunRequest from src/protocol.rs (the pipeline-facing fields). -/
abbrev RunRequest := RunSpec Param

/-- RunRecipe: the fully resolved request, every param a string. -/
abbrev RunRecipe := RunSpec String

/-- RunResponse from src/protocol.rs. -/
structure RunResponse where
  return_code : Int
  exc : Option String
deriving DecidableEq, Repr

/-- First-match association-list lookup, the model of
`HashMap::get` over our association lists (insert is modelled by
prepending, so the first hit is the newest binding). -/
def alookup {α : Type} : List (String × α) → String → Option α
  | [], _ => none
  | (k, v) :: r, key => if k = key then some v else alookup r key

/-- Queue selection from Client::run, src/client.rs lines 38-50:
`CmdNameParam` uses the caller queue or falls back to the name,
`CmdPathParam` requires a caller queue, and every other command variant
is rejected even when a queue was supplied. -/
def selectQueue (command : Param) (queue : Option String) : Except RErr String :=
  match command with
  | .cmdNameParam name => .ok (queue.getD name)
  | .cmdPathParam _ =>
    match queue with
    | some q => .ok q
    | none => .error (.err "Queue should be specified when command is instance of CmdPathParam")
  | _ => .error (.err "Expect command in type of CmdNameParam or CmdPathParam")

/-- Combine one element result with the rest, mirroring
`join_all(..).into_iter().collect::<Result<Vec<_>>>()`: every element
has already run (its state effects happened), and the first error in
iteration order wins. -/
def combineE {α : Type} : Except RErr α → Except RErr (List α) → Except RErr (List α)
  | .ok v, .ok vs => .ok (v :: vs)
  | .error e, _ => .error e
  | .ok _, .error e => .error e

/-- Run a per-element transformer over a list, threading the state
through every element (all futures of the `join_all` run) and
collecting the first error, as in guard_run_args and
guard_hashmap_args in src/middles/invoke/mod.rs. -/
def resolveAllG {α σ β : Type} (f : α → σ → Except RErr β × σ) :
    List α → σ → Except RErr (List β) × σ
  | [], st => (.ok [], st)
  | a :: rest, st =>
    let (r, st1) := f a st
    let (rs, st2) := resolveAllG f rest st1
    (combineE r rs, st2)

/-- The sequential env loop of guard_run_args
(src/middles/invoke/mod.rs lines 166-175): each `(key, arg)` is
resolved with its key passed along (feeding pass_env), failing fast on
the first error, and the resolved pairs form the wrapped env map. -/
def envPhaseG {σ β : Type} (f : Param → Option String → σ → Except RErr β × σ) :
    List (String × Param) → σ → Except RErr (List (String × β)) × σ
  | [], st => (.ok [], st)
  | (k, a) :: rest, st =>
    match f a (some k) st with
    | (.ok b, st1) =>
      match envPhaseG f rest st1 with
      | (.ok bs, st2) => (.ok ((k, b) :: bs), st2)
      | (.error e, st2) => (.error e, st2)
    | (.error e, st1) => (.error e, st1)

/-- guard_run_args from src/middles/invoke/mod.rs lines 157-205: the
env map is resolved first (sequentially, fail-fast), then command,
stdout, stderr and args are resolved through one joined iterator and
the results are split back into the specification fields. -/
def guardRunArgsG {σ β : Type} (f : Param → Option String → σ → Except RErr β × σ)
    (req : RunSpec Param) (st : σ) : Except RErr (RunSpec β) × σ :=
  let envStep : Except RErr (Option (List (String × β))) × σ :=
    match req.env with
    | none => (.ok none, st)
    | some m =>
      match envPhaseG f m st with
      | (.ok wrapped, st1) => (.ok (some wrapped), st1)
      | (.error e, st1) => (.error e, st1)
  match envStep with
  | (.error e, st1) => (.error e, st1)
  | (.ok envB, st1) =>
    let ps := req.command :: (req.stdout.toList ++ req.stderr.toList ++ req.args)
    match resolveAllG (fun a => f a none) ps st1 with
    | (.error e, st2) => (.error e, st2)
    | (.ok vs, st2) =>
      match vs with
      | [] => (.error (.panicked "pop_front unwrap"), st2)
      | c :: rest =>
        let so := if req.stdout.isSome then rest.head? else none
        let rest1 := if req.stdout.isSome then rest.drop 1 else rest
        let se := if req.stderr.isSome then rest1.head? else none
        let rest2 := if req.stderr.isSome then rest1.drop 1 else rest1
        (.ok { command := c, args := rest2, cwd := req.cwd, env := envB,
               stdout := so, stderr := se }, st2)

/-- guard_hashmap_args from src/middles/invoke/mod.rs lines 133-155:
the values of the map are transformed through a `join_all`, the keys
are cloned separately, and the two iterators over the same map are
zipped back together into the resulting map. -/
def guardHashmapArgs {α σ β : Type} (f : α → σ → Except RErr β × σ)
    (args : List (String × α)) (st : σ) : Except RErr (List (String × β)) × σ :=
  match resolveAllG f (args.map Prod.snd) st with
  | (.ok vs, st1) => (.ok ((args.map Prod.fst).zip vs), st1)
  | (.error e, st1) => (.error e, st1)

/-- External-effect oracles of the client end: the client OS
environment and the per-cloud-key outcomes of bucket upload, download
and delete. -/
structure ClientCfg where
  osEnv : String → Option String
  uploadOk : String → Bool
  downloadOk : String → Bool
  deleteOk : String → Bool

/-- Client-end middleware state: the pushed guard stack (each guard is
identified by the param it closes over), the set of cloud keys
currently holding uploaded content, and whether a task has been sent
to the broker. -/
structure ClientState where
  guards : List Param
  cloud : List String
  taskSent : Bool

/-- Push one guard on the client stack (guards_mut().push(guard)). -/
def cliPush (g : Param) (st : ClientState) : ClientState :=
  { st with guards := st.guards ++ [g] }

/-- Record an uploaded cloud key (repeated uploads replace content). -/
def cloudAdd (url : String) (st : ClientState) : ClientState :=
  if url ∈ st.cloud then st else { st with cloud := url :: st.cloud }

/-- Remove a cloud key after a successful delete. -/
def cloudRemove (url : String) (st : ClientState) : ClientState :=
  { st with cloud := st.cloud.filter (fun u => u ≠ url) }

mutual
/-- Client-end guard construction plus `enter`, the body of push_guard
for one param (src/middles/invoke/client_end.rs): `Str`, `CmdName`,
`CmdPath` and the cloud variants return themselves; `Env` reads the
client OS environment and fails when unset; `RemoteEnv` is rewritten
into `Env`; `InLocalFile` uploads in place and returns its cloud
counterpart; `OutLocalFile` returns its cloud counterpart without
uploading; `Format` recursively pushes a guard for every argument.  A
guard is pushed only after its `enter` succeeded. -/
def cliResolve (cfg : ClientCfg) : Param → ClientState → Except RErr Param × ClientState
  | .strParam v, st => (.ok (.strParam v), cliPush (.strParam v) st)
  | .envParam n, st =>
    match cfg.osEnv n with
    | some v => (.ok (.strParam v), cliPush (.envParam n) st)
    | none => (.error (.err "environment variable not found"), st)
  | .remoteEnvParam n, st => (.ok (.envParam n), cliPush (.remoteEnvParam n) st)
  | .cmdNameParam n, st => (.ok (.cmdNameParam n), cliPush (.cmdNameParam n) st)
  | .cmdPathParam p, st => (.ok (.cmdPathParam p), cliPush (.cmdPathParam p) st)
  | .inCloudFileParam f h, st => (.ok (.inCloudFileParam f h), cliPush (.inCloudFileParam f h) st)
  | .outCloudFileParam f h, st => (.ok (.outCloudFileParam f h), cliPush (.outCloudFileParam f h) st)
  | .inLocalFileParam f h, st =>
    if cfg.uploadOk (cloudUrl h f) then
      (.ok (.inCloudFileParam f h), cliPush (.inLocalFileParam f h) (cloudAdd (cloudUrl h f) st))
    else
      (.error (.err "upload failed"), st)
  | .outLocalFileParam f h, st => (.ok (.outCloudFileParam f h), cliPush (.outLocalFileParam f h) st)
  | .formatParam tmpl fargs, st =>
    match cliResolveArgs cfg fargs st with
    | (.ok fargs1, st1) => (.ok (.formatParam tmpl fargs1), cliPush (.formatParam tmpl fargs) st1)
    | (.error e, st1) => (.error e, st1)

/-- Client-end traversal of a Format argument map: guard_hashmap_args
specialised to the recursive push_guard, every value processed, first
error kept, keys preserved in place. -/
def cliResolveArgs (cfg : ClientCfg) : FormatArgs → ClientState → Except RErr FormatArgs × ClientState
  | .nil, st => (.ok .nil, st)
  | .cons k p rest, st =>
    let (r, st1) := cliResolve cfg p st
    let (rs, st2) := cliResolveArgs cfg rest st1
    (match r, rs with
     | .ok b, .ok bs => .ok (.cons k b bs)
     | .error e, _ => .error e
     | .ok _, .error e => .error e, st2)
end

/-- The client invoke transform_request: guard_run_args over push_guard
(key ignored because the client-end pass_env is a no-op). -/
def cliTransformRequest (cfg : ClientCfg) (req : RunRequest) (st : ClientState) :
    Except RErr RunRequest × ClientState :=
  guardRunArgsG (fun p _ st => cliResolve cfg p st) req st

/-- Exit of one client-end guard
(src/middles/invoke/client_end.rs): `InLocalFile` deletes its cloud
residue and surfaces a delete failure as an error; `OutLocalFile`
downloads the produced output (failure surfaces) and then deletes the
cloud copy swallowing any delete failure (`unwrap_or_default`); every
other guard uses the default no-op exit. -/
def cliExit (cfg : ClientCfg) (g : Param) (st : ClientState) : Except RErr Unit × ClientState :=
  match g with
  | .inLocalFileParam f h =>
    if cfg.deleteOk (cloudUrl h f) then (.ok (), cloudRemove (cloudUrl h f) st)
    else (.error (.err "delete failed"), st)
  | .outLocalFileParam f h =>
    if cfg.downloadOk (cloudUrl h f) then
      if cfg.deleteOk (cloudUrl h f) then (.ok (), cloudRemove (cloudUrl h f) st)
      else (.ok (), st)
    else (.error (.err "download failed"), st)
  | _ => (.ok (), st)

/-- Run the exits of a list of guards in order, every exit awaited
(join_all) and the first error kept. -/
def cliExitAll (cfg : ClientCfg) : List Param → ClientState → Except RErr Unit × ClientState
  | [], st => (.ok (), st)
  | g :: rest, st =>
    let (r, st1) := cliExit cfg g st
    let (rs, st2) := cliExitAll cfg rest st1
    (match r, rs with
     | .ok _, .ok _ => .ok ()
     | .error e, _ => .error e
     | .ok _, .error e => .error e, st2)

/-- pop_all_guards from src/middles/invoke/mod.rs lines 111-128: the
stack is drained in LIFO order and every guard exit is awaited. -/
def cliPopAllGuards (cfg : ClientCfg) (st : ClientState) : Except RErr Unit × ClientState :=
  cliExitAll cfg st.guards.reverse { st with guards := [] }

/-- The client invoke transform_response
(src/middles/invoke/mod.rs lines 51-57): `pop_all_guards().await?`
then the untouched inner response. -/
def cliInvokeTransformResponse (cfg : ClientCfg) (resp : Except RErr RunResponse)
    (st : ClientState) : Except RErr RunResponse × ClientState :=
  match cliPopAllGuards cfg st with
  | (.ok _, st1) => (resp, st1)
  | (.error e, st1) => (.error e, st1)

/-- Whether the exit of a client-end guard succeeds under the given
oracles: an `InLocalFile` exit needs its delete to succeed, an
`OutLocalFile` exit needs only its download (a delete failure is
swallowed), every other exit always succeeds. -/
def cliExitOk (cfg : ClientCfg) : Param → Bool
  | .inLocalFileParam f h => cfg.deleteOk (cloudUrl h f)
  | .outLocalFileParam f h => cfg.downloadOk (cloudUrl h f)
  | _ => true

/-- The client serde transform_response
(src/middles/serde/client_end.rs): decode the inner string, then lift
a non-null `exc` into a local error. -/
def serdeClientResp (de : String → Except RErr RunResponse) :
    Except RErr String → Except RErr RunResponse
  | .error e => .error e
  | .ok s =>
    match de s with
    | .error e => .error e
    | .ok r =>
      match r.exc with
      | some m => .error (.err ("Server Error: return code " ++ toString r.return_code ++ ", " ++ m))
      | none => .ok r

/-- Client::run from src/client.rs composed through
apply_middles (src/codegen.rs): queue selection, then the invoke and
serde middlewares wrapped around the broker send.  As in the expanded
macro, when a middleware transform_request fails its own
transform_response is skipped and the error is returned directly.
`ser`, `de` and `broker` are the external serde_json and celery
dependencies. -/
def clientRun (cfg : ClientCfg) (broker : String → Except RErr String)
    (ser : RunRequest → String) (de : String → Except RErr RunResponse)
    (req : RunRequest) (queue : Option String) : Except RErr Int × ClientState :=
  let st0 : ClientState := { guards := [], cloud := [], taskSent := false }
  match selectQueue req.command queue with
  | .error e => (.error e, st0)
  | .ok _ =>
    match cliTransformRequest cfg req st0 with
    | (.error e, st1) => (.error e, st1)
    | (.ok req1, st1) =>
      let serialized := ser req1
      let st2 := { st1 with taskSent := true }
      let inner : Except RErr RunResponse := serdeClientResp de (broker serialized)
      match cliInvokeTransformResponse cfg inner st2 with
      | (.ok r, st3) => (.ok r.return_code, st3)
      | (.error e, st3) => (.error e, st3)

/-- Literal opening brace character (written via its code point so that
template examples stay readable). -/
def braceOpen : Char := Char.ofNat 123

/-- Literal closing brace character. -/
def braceClose : Char := Char.ofNat 125

/-- Core scanner of the strfmt template renderer used by the server
FormatGuard (the strfmt crate): outside a placeholder (`acc = none`)
characters are copied, doubled braces escape themselves, a lone closing
brace is an error and an opening brace starts a placeholder; inside a
placeholder (`acc = some name`) characters accumulate until the closing
brace, at which point the name is substituted from `vars`, a missing
name being a KeyError. -/
def strfmtAux (vars : List (String × String)) : List Char → Option (List Char) → Except RErr String
  | [], none => .ok ""
  | [], some _ => .error (.err "strfmt: unmatched brace")
  | c :: rest, none =>
    if c = braceOpen then
      match rest with
      | [] => .error (.err "strfmt: unmatched brace")
      | c2 :: rest2 =>
        if c2 = braceOpen then
          match strfmtAux vars rest2 none with
          | .ok t => .ok (String.singleton braceOpen ++ t)
          | .error e => .error e
        else if c2 = braceClose then
          match alookup vars "" with
          | some v =>
            match strfmtAux vars rest2 none with
            | .ok t => .ok (v ++ t)
            | .error e => .error e
          | none => .error (.err "strfmt KeyError: ")
        else strfmtAux vars rest2 (some [c2])
    else if c = braceClose then
      match rest with
      | [] => .error (.err "strfmt: unmatched brace")
      | c2 :: rest2 =>
        if c2 = braceClose then
          match strfmtAux vars rest2 none with
          | .ok t => .ok (String.singleton braceClose ++ t)
          | .error e => .error e
        else .error (.err "strfmt: unmatched brace")
    else
      match strfmtAux vars rest none with
      | .ok t => .ok (String.singleton c ++ t)
      | .error e => .error e
  | c :: rest, some acc =>
    if c = braceClose then
      match alookup vars (String.mk acc.reverse) with
      | some v =>
        match strfmtAux vars rest none with
        | .ok t => .ok (v ++ t)
        | .error e => .error e
      | none => .error (.err ("strfmt KeyError: " ++ String.mk acc.reverse))
    else if c = braceOpen then .error (.err "strfmt: unexpected brace")
    else strfmtAux vars rest (some (c :: acc))

/-- strfmt(tmpl, vars): render a template with named placeholders. -/
def strfmtList (tmpl : String) (vars : List (String × String)) : Except RErr String :=
  strfmtAux vars tmpl.data none

/-- A server-end guard as it sits on the stack: cloud-file guards
remember their cloud key and allocated scratch path; every other guard
has the default no-op exit. -/
inductive SrvGuard where
  | plain
  | inCloudG (url temppath : String)
  | outCloudG (url temppath : String)
deriving DecidableEq, Repr

/-- External-effect oracles of the server end: the worker OS
environment, the command palette, and per-key bucket outcomes
(`downloadOk` for cloud-input fetches, `produced` for whether the
command created a given scratch file, `uploadOk` for output uploads). -/
structure ServerCfg where
  osEnv : String → Option String
  command_palette : List (String × String)
  downloadOk : String → Bool
  produced : String → Bool
  uploadOk : String → Bool

/-- Server-end middleware state (struct Data in
src/middles/invoke/server_end.rs): the passed-env map, the guard
stack, and a counter giving fresh scratch paths in the per-request
temp directory. -/
structure ServerState where
  passedEnv : List (String × String)
  guards : List SrvGuard
  tempCtr : Nat
deriving Repr

/-- Path::file_name of the original filepath (used as the scratch file
suffix). -/
def basename (p : String) : String :=
  (p.splitOn "/").getLastD ""

/-- new_temppath from src/middles/invoke/server_end.rs lines 36-48:
allocate a fresh uniquely-named path in the scratch directory carrying
the original basename as suffix. -/
def allocTemp (st : ServerState) (filepath : String) : String × ServerState :=
  ("/scratch/." ++ toString st.tempCtr ++ basename filepath,
   { st with tempCtr := st.tempCtr + 1 })

/-- Push one guard on the server stack. -/
def srvPushG (g : SrvGuard) (st : ServerState) : ServerState :=
  { st with guards := st.guards ++ [g] }

mutual
/-- Server-end guard construction plus `enter` for one param
(src/middles/invoke/server_end.rs): `Str` yields its value; `Env`
consults the OS environment first, then the passed-env map, else the
empty string; `CmdName` is looked up in the command palette and fails
when missing; `CmdPath` yields its path; `InCloudFile` allocates a
scratch path, downloads into it and yields the path; `OutCloudFile`
allocates a scratch path and yields it; `Format` resolves its
arguments recursively and renders the template.  `RemoteEnv` and the
local-file variants hit the `unreachable!("Unaccepted Param ...")`
arm of guard_param, modelled as a panic.  A guard is pushed only
after its `enter` succeeded. -/
def srvResolve (cfg : ServerCfg) : Param → ServerState → Except RErr String × ServerState
  | .strParam v, st => (.ok v, srvPushG .plain st)
  | .envParam n, st =>
    (.ok ((cfg.osEnv n).getD ((alookup st.passedEnv n).getD "")), srvPushG .plain st)
  | .remoteEnvParam _, st => (.error (.panicked "Unaccepted Param for server"), st)
  | .cmdNameParam n, st =>
    match alookup cfg.command_palette n with
    | some path => (.ok path, srvPushG .plain st)
    | none => (.error (.err ("Command " ++ n ++ " not found in command-palette")), st)
  | .cmdPathParam p, st => (.ok p, srvPushG .plain st)
  | .inLocalFileParam _ _, st => (.error (.panicked "Unaccepted Param for server"), st)
  | .outLocalFileParam _ _, st => (.error (.panicked "Unaccepted Param for server"), st)
  | .inCloudFileParam f h, st =>
    let (tp, st1) := allocTemp st f
    if cfg.downloadOk (cloudUrl h f) then (.ok tp, srvPushG (.inCloudG (cloudUrl h f) tp) st1)
    else (.error (.err "download failed"), st1)
  | .outCloudFileParam f h, st =>
    let (tp, st1) := allocTemp st f
    (.ok tp, srvPushG (.outCloudG (cloudUrl h f) tp) st1)
  | .formatParam tmpl fargs, st =>
    match srvResolveArgs cfg fargs st with
    | (.ok vs, st1) =>
      match strfmtList tmpl (fargs.keys.zip vs) with
      | .ok s => (.ok s, srvPushG .plain st1)
      | .error e => (.error e, st1)
    | (.error e, st1) => (.error e, st1)

/-- Server-end traversal of a Format argument map (guard_hashmap_args
over the recursive push_guard with no key): every value is processed,
the first error is kept, and the resolved strings come back in map
order ready to be zipped with the keys. -/
def srvResolveArgs (cfg : ServerCfg) : FormatArgs → ServerState → Except RErr (List String) × ServerState
  | .nil, st => (.ok [], st)
  | .cons _ p rest, st =>
    let (r, st1) := srvResolve cfg p st
    let (rs, st2) := srvResolveArgs cfg rest st1
    (combineE r rs, st2)
end

/-- GuardStackData::push_guard (src/middles/invoke/mod.rs lines 68-91)
at the server end: resolve the param, and if an env key was passed,
record the resolved string in the passed-env map afterwards. -/
def srvPushGuard (cfg : ServerCfg) (p : Param) (key : Option String) (st : ServerState) :
    Except RErr String × ServerState :=
  match srvResolve cfg p st with
  | (.ok v, st1) =>
    (.ok v,
     match key with
     | some k => { st1 with passedEnv := (k, v) :: st1.passedEnv }
     | none => st1)
  | (.error e, st1) => (.error e, st1)

/-- The server invoke transform_request: guard_run_args over the
server push_guard. -/
def srvTransformRequest (cfg : ServerCfg) (req : RunRequest) (st : ServerState) :
    Except RErr RunRecipe × ServerState :=
  guardRunArgsG (srvPushGuard cfg) req st

/-- Exit of one server-end guard: an `OutCloudFile` guard uploads its
scratch file when the command produced it (skipping silently
otherwise); every other guard exit is a no-op. -/
def srvExit (cfg : ServerCfg) : SrvGuard → Except RErr Unit
  | .outCloudG url tp =>
    if cfg.produced tp then
      if cfg.uploadOk url then .ok () else .error (.err "upload failed")
    else .ok ()
  | _ => .ok ()

/-- Run all server guard exits in order, first error kept. -/
def srvExitAll (cfg : ServerCfg) : List SrvGuard → Except RErr Unit
  | [] => .ok ()
  | g :: rest =>
    match srvExit cfg g, srvExitAll cfg rest with
    | .ok _, .ok _ => .ok ()
    | .error e, _ => .error e
    | .ok _, .error e => .error e

/-- pop_all_guards at the server end: drain the stack LIFO, await
every exit. -/
def srvPopAllGuards (cfg : ServerCfg) (st : ServerState) : Except RErr Unit × ServerState :=
  (srvExitAll cfg st.guards.reverse, { st with guards := [] })

/-- The server invoke transform_response
(src/middles/invoke/server_end.rs lines 256-266):
`pop_all_guards().await?`, then wrap the child exit code as
`RunResponse { return_code, exc: None }`, passing any inner error
through. -/
def srvInvokeTransformResponse (cfg : ServerCfg) (r : Except RErr Int) (st : ServerState) :
    Except RErr RunResponse × ServerState :=
  match srvPopAllGuards cfg st with
  | (.ok _, st1) =>
    (match r with
     | .ok c => .ok { return_code := c, exc := none }
     | .error e => .error e, st1)
  | (.error e, st1) => (.error e, st1)

/-- Message carried by an anyhow error or a panic. -/
def fmtRErr : RErr → String
  | .err m => m
  | .panicked m => m

/-- The double-quote character. -/
def quoteChar : Char := Char.ofNat 34

/-- The backslash character. -/
def backslashChar : Char := Char.ofNat 92

/-- Minimal JSON string escaping (quotes and backslashes) over the
character list, the part of serde_json::to_string relevant to the
messages appearing here. -/
def jsonEscapeChars : List Char → String
  | [] => ""
  | c :: rest =>
    (if c = quoteChar then String.singleton backslashChar ++ String.singleton quoteChar
     else if c = backslashChar then String.singleton backslashChar ++ String.singleton backslashChar
     else String.singleton c) ++ jsonEscapeChars rest

/-- JSON string escaping of a string. -/
def jsonEscape (s : String) : String :=
  jsonEscapeChars s.data

/-- serde_json::to_string of a RunResponse. -/
def encodeRunResponse (r : RunResponse) : String :=
  "\x7b\"return_code\":" ++ toString r.return_code ++ ",\"exc\":" ++
    (match r.exc with
     | none => "null"
     | some m => "\"" ++ jsonEscape m ++ "\"") ++ "\x7d"

/-- The server serde transform_response
(src/middles/serde/server_end.rs lines 20-32): a successful response is
serialized; an ordinary error is embedded as
`RunResponse { return_code: -1, exc: Some(msg) }` and serialized; a
panic is not a `Result` error and keeps unwinding. -/
def serdeServerResp (r : Except RErr RunResponse) : Except RErr String :=
  match r with
  | .ok resp => .ok (encodeRunResponse resp)
  | .error (.err m) => .ok (encodeRunResponse { return_code := -1, exc := some m })
  | .error (.panicked m) => .error (.panicked m)

/-- Server::run from src/server.rs composed through apply_middles
(src/codegen.rs) with the stack [serde; invoke] around the process
launch, followed by
`.expect("Unreachable: please embedding all the errors into serialization!")`.
As in the expanded macro, when the serde transform_request (the
deserialization of the task payload, an external serde_json call whose
outcome is the `parsed` argument) fails, the serde transform_response
is skipped, so the error reaches the `.expect` and the task panics:
the final result is `Except String String` with `.error` carrying the
panic message.  `realRun` is the process-launch closure. -/
def serverRun (cfg : ServerCfg) (realRun : RunRecipe → Except RErr Int)
    (parsed : Except RErr RunRequest) : Except String String :=
  let st0 : ServerState := { passedEnv := [], guards := [], tempCtr := 0 }
  let res : Except RErr String :=
    match parsed with
    | .error e => .error e
    | .ok req =>
      let inner : Except RErr RunResponse :=
        match srvTransformRequest cfg req st0 with
        | (.error e, _) => .error e
        | (.ok recipe, st1) => (srvInvokeTransformResponse cfg (realRun recipe) st1).1
      serdeServerResp inner
  match res with
  | .ok s => .ok s
  | .error (.err m) =>
    .error ("panicked: Unreachable: please embedding all the errors into serialization!: " ++ m)
  | .error (.panicked m) => .error ("panicked: " ++ m)

/-- Outcome of `std::process::Command::status()` in real_run
(src/server.rs lines 25-50): either the spawn/wait failed, or the
child terminated with `code()` being `Some(exit code)` or `None`
(killed by a signal). -/
inductive ChildOutcome where
  | spawnErr (msg : String)
  | exited (code : Option Int)
deriving DecidableEq, Repr

/-- The body of real_run: `let ret_code = st?.code().unwrap_or(0)` — a
spawn failure becomes an error, and a missing exit code silently
becomes 0. -/
def realRunModel : ChildOutcome → Except RErr Int
  | .spawnErr m => .error (.err m)
  | .exited c => .ok (c.getD 0)

/-- The response ultimately serialized for a given child outcome
(invoke transform_response wrapping the code, serde transform_response
embedding an error as return_code -1 with the message in exc),
assuming guard exits succeed. -/
def wrapperResponse (o : ChildOutcome) : RunResponse :=
  match realRunModel o with
  | .ok c => { return_code := c, exc := none }
  | .error e => { return_code := -1, exc := some (fmtRErr e) }

/-- Whether the server had no exit code to report for a child outcome:
the spawn/wait failed, or the child terminated without a code. -/
def couldNotProduceCode : ChildOutcome → Bool
  | .spawnErr _ => true
  | .exited none => true
  | .exited (some _) => false

/-- Shared concrete client oracles for the concrete evaluations below. -/
def cfgC0 : ClientCfg :=
  { osEnv := fun _ => none, uploadOk := fun _ => true,
    downloadOk := fun _ => true, deleteOk := fun _ => true }

/-- Shared fresh client state. -/
def stC0 : ClientState := { guards := [], cloud := [], taskSent := false }

/-- Shared concrete server oracles: empty OS environment, a palette
mapping sh to /bin/sh, all cloud transfers succeeding, no scratch
output produced. -/
def cfgS0 : ServerCfg :=
  { osEnv := fun _ => none, command_palette := [("sh", "/bin/sh")],
    downloadOk := fun _ => true, produced := fun _ => false, uploadOk := fun _ => true }

/-- Shared fresh server state. -/
def stS0 : ServerState := { passedEnv := [], guards := [], tempCtr := 0 }

/-- The element-wise success witness used to describe resolveAllG
results: `f` sent `a` to `b` from some intermediate state. -/
def ranOk {α σ β : Type} (f : α → σ → Except RErr β × σ) (a : α) (b : β) : Prop :=
  ∃ stA stB, f a stA = (.ok b, stB)

theorem combineE_ok {α : Type} {r : Except RErr α} {rs : Except RErr (List α)}
    {vs : List α} (h : combineE r rs = .ok vs) :
    ∃ b bs, r = .ok b ∧ rs = .ok bs ∧ vs = b :: bs := by
  cases r with
  | ok b =>
    cases rs with
    | ok bs => exact ⟨b, bs, rfl, rfl, by simpa [combineE] using h.symm⟩
    | error e => simp [combineE] at h
  | error e => simp [combineE] at h

theorem resolveAllG_forall2 {α σ β : Type} (f : α → σ → Except RErr β × σ)
    (P : σ → Prop) (hf : ∀ a st, P st → P (f a st).2)
    (R : α → β → Prop) (hR : ∀ a st b st', P st → f a st = (.ok b, st') → R a b) :
    ∀ (l : List α) (st : σ) (vs : List β) (st' : σ),
      P st → resolveAllG f l st = (.ok vs, st') → List.Forall₂ R l vs := by
  intro l
  induction l with
  | nil =>
    intro st vs st' _ h
    simp only [resolveAllG] at h
    cases h
    exact List.Forall₂.nil
  | cons a rest ih =>
    intro st vs st' hP h
    simp only [resolveAllG] at h
    rcases hfa : f a st with ⟨r, st1⟩
    rcases hrest : resolveAllG f rest st1 with ⟨rs, st2⟩
    rw [hfa, hrest] at h
    simp only at h
    have hc : combineE r rs = .ok vs := congrArg Prod.fst h
    obtain ⟨b, bs, hb, hbs, rfl⟩ := combineE_ok hc
    subst hb hbs
    have hP1 : P st1 := by have := hf a st hP; rwa [hfa] at this
    exact List.Forall₂.cons (hR a st b st1 hP hfa) (ih st1 bs st2 hP1 hrest)

theorem resolveAllG_state {α σ β : Type} (f : α → σ → Except RErr β × σ)
    (P : σ → Prop) (hf : ∀ a st, P st → P (f a st).2) :
    ∀ (l : List α) (st : σ), P st → P (resolveAllG f l st).2 := by
  intro l
  induction l with
  | nil => intro st h; simpa [resolveAllG] using h
  | cons a rest ih =>
    intro st hP
    simp only [resolveAllG]
    rcases hfa : f a st with ⟨r, st1⟩
    rcases hrest : resolveAllG f rest st1 with ⟨rs, st2⟩
    simp only
    have : P st1 := by have := hf a st hP; rwa [hfa] at this
    have := ih st1 this
    rwa [hrest] at this

theorem srv_passedEnv_aux : ∀ n : Nat,
    (∀ p : Param, sizeOf p ≤ n → ∀ (cfg : ServerCfg) (st : ServerState),
       ((srvResolve cfg p st).2).passedEnv = st.passedEnv) ∧
    (∀ l : FormatArgs, sizeOf l ≤ n → ∀ (cfg : ServerCfg) (st : ServerState),
       ((srvResolveArgs cfg l st).2).passedEnv = st.passedEnv) := by
  intro n
  induction n with
  | zero =>
    constructor
    · intro p hp
      exfalso
      cases p <;> simp at hp
    · intro l hl
      exfalso
      cases l <;> simp at hl
  | succ n ih =>
    constructor
    · intro p hp cfg st
      cases p with
      | strParam v => simp [srvResolve, srvPushG]
      | envParam nm => simp [srvResolve, srvPushG]
      | remoteEnvParam nm => simp [srvResolve]
      | cmdNameParam nm =>
        simp only [srvResolve]
        rcases alookup cfg.command_palette nm with _ | path <;> simp [srvPushG]
      | cmdPathParam pth => simp [srvResolve, srvPushG]
      | inLocalFileParam f h => simp [srvResolve]
      | outLocalFileParam f h => simp [srvResolve]
      | inCloudFileParam f h =>
        simp only [srvResolve, allocTemp]
        split <;> simp [srvPushG]
      | outCloudFileParam f h => simp [srvResolve, allocTemp, srvPushG]
      | formatParam tmpl fargs =>
        have hsz : sizeOf fargs ≤ n := by simp at hp; omega
        simp only [srvResolve]
        rcases hargs : srvResolveArgs cfg fargs st with ⟨r, st1⟩
        have hst1 : st1.passedEnv = st.passedEnv := by
          have := ih.2 fargs hsz cfg st
          rwa [hargs] at this
        cases r with
        | error e => simpa using hst1
        | ok vs =>
          simp only
          split <;> simpa [srvPushG] using hst1
    · intro l hl cfg st
      cases l with
      | nil => simp [srvResolveArgs]
      | cons k p rest =>
        have hszp : sizeOf p ≤ n := by simp at hl; omega
        have hszr : sizeOf rest ≤ n := by simp at hl; omega
        simp only [srvResolveArgs]
        rcases h1 : srvResolve cfg p st with ⟨r, st1⟩
        rcases h2 : srvResolveArgs cfg rest st1 with ⟨rs, st2⟩
        have e1 : st1.passedEnv = st.passedEnv := by
          have := ih.1 p hszp cfg st
          rwa [h1] at this
        have e2 : st2.passedEnv = st1.passedEnv := by
          have := ih.2 rest hszr cfg st1
          rwa [h2] at this
        simp only
        rw [e2, e1]

theorem srvResolve_passedEnv (cfg : ServerCfg) (p : Param) (st : ServerState) :
    ((srvResolve cfg p st).2).passedEnv = st.passedEnv :=
  (srv_passedEnv_aux (sizeOf p)).1 p le_rfl cfg st

theorem srvResolveArgs_passedEnv (cfg : ServerCfg) (l : FormatArgs) (st : ServerState) :
    ((srvResolveArgs cfg l st).2).passedEnv = st.passedEnv :=
  (srv_passedEnv_aux (sizeOf l)).2 l le_rfl cfg st

theorem srvPushGuard_none (cfg : ServerCfg) (p : Param) (st : ServerState) :
    srvPushGuard cfg p none st = srvResolve cfg p st := by
  unfold srvPushGuard
  rcases srvResolve cfg p st with ⟨r, st1⟩
  cases r <;> simp

theorem alookup_append_of_not_mem {α : Type} :
    ∀ (pre l : List (String × α)) (k : String),
      k ∉ pre.map Prod.fst → alookup (pre ++ l) k = alookup l k := by
  intro pre
  induction pre with
  | nil => intro l k _; rfl
  | cons kv rest ih =>
    intro l k hk
    obtain ⟨kv1, kv2⟩ := kv
    have h1 : kv1 ≠ k := fun he => hk (by simp [he])
    show alookup ((kv1, kv2) :: (rest ++ l)) k = alookup l k
    simp only [alookup]
    rw [if_neg h1]
    exact ih l k (fun hin => hk (by simp [hin]))

theorem srvPushGuard_some_ok {cfg : ServerCfg} {p : Param} {k' : String}
    {st st1 : ServerState} {v : String}
    (h : srvPushGuard cfg p (some k') st = (.ok v, st1)) :
    st1.passedEnv = (k', v) :: st.passedEnv := by
  unfold srvPushGuard at h
  rcases hres : srvResolve cfg p st with ⟨r, stA⟩
  rw [hres] at h
  cases r with
  | ok b =>
    simp only at h
    obtain ⟨h1, h2⟩ := Prod.mk.injEq .. ▸ h
    cases h1
    have : stA.passedEnv = st.passedEnv := by
      have := srvResolve_passedEnv cfg p st
      rwa [hres] at this
    simp [← h2, this]
  | error e => simp at h

theorem srvPushGuard_error {cfg : ServerCfg} {p : Param} {key : Option String}
    {st st1 : ServerState} {e : RErr}
    (h : srvPushGuard cfg p key st = (.error e, st1)) :
    st1.passedEnv = st.passedEnv := by
  unfold srvPushGuard at h
  rcases hres : srvResolve cfg p st with ⟨r, stA⟩
  rw [hres] at h
  cases r with
  | ok b => cases key <;> simp at h
  | error e2 =>
    simp only at h
    obtain ⟨h1, h2⟩ := Prod.mk.injEq .. ▸ h
    have : stA.passedEnv = st.passedEnv := by
      have := srvResolve_passedEnv cfg p st
      rwa [hres] at this
    rw [← h2, this]

theorem srvEnvPhase_extends (cfg : ServerCfg) :
    ∀ (m : List (String × Param)) (st : ServerState) (r : Except RErr (List (String × String)))
      (st1 : ServerState),
      envPhaseG (srvPushGuard cfg) m st = (r, st1) →
      ∃ pre, st1.passedEnv = pre ++ st.passedEnv ∧ ∀ kv ∈ pre, kv.1 ∈ m.map Prod.fst := by
  intro m
  induction m with
  | nil =>
    intro st r st1 h
    simp only [envPhaseG] at h
    injection h with h1 h2
    exact ⟨[], by simp [← h2], by simp⟩
  | cons ka rest ih =>
    intro st r st1 h
    obtain ⟨k', p'⟩ := ka
    simp only [envPhaseG] at h
    rcases hh : srvPushGuard cfg p' (some k') st with ⟨rh, stA⟩
    rw [hh] at h
    cases rh with
    | error e =>
      simp only at h
      injection h with h1 h2
      refine ⟨[], ?_, by simp⟩
      rw [← h2]
      simpa using srvPushGuard_error hh
    | ok b =>
      have hA : stA.passedEnv = (k', b) :: st.passedEnv := srvPushGuard_some_ok hh
      simp only at h
      rcases hr : envPhaseG (srvPushGuard cfg) rest stA with ⟨rr, st2⟩
      rw [hr] at h
      obtain ⟨pre', hpre', hkeys'⟩ := ih stA rr st2 hr
      have hst1 : st1 = st2 := by
        cases rr with
        | ok bs => simp only at h; injection h with h1 h2; exact h2.symm
        | error e => simp only at h; injection h with h1 h2; exact h2.symm
      refine ⟨pre' ++ [(k', b)], ?_, ?_⟩
      · rw [hst1, hpre', hA, List.append_assoc]
        rfl
      · intro kv hkv
        rcases List.mem_append.mp hkv with hmem | hmem
        · exact List.mem_cons_of_mem _ (hkeys' kv hmem)
        · simp only [List.mem_singleton] at hmem
          subst hmem
          simp

theorem srvEnvPhase_lookup (cfg : ServerCfg) :
    ∀ (m : List (String × Param)) (st : ServerState) (wrapped : List (String × String))
      (st1 : ServerState),
      envPhaseG (srvPushGuard cfg) m st = (.ok wrapped, st1) →
      (m.map Prod.fst).Nodup →
      ∀ (k s : String), (k, Param.strParam s) ∈ m →
        alookup st1.passedEnv k = some s := by
  intro m
  induction m with
  | nil => intro st wrapped st1 _ _ k s hmem; simp at hmem
  | cons ka rest ih =>
    intro st wrapped st1 h hnd k s hmem
    obtain ⟨k', p'⟩ := ka
    simp only [envPhaseG] at h
    rcases hh : srvPushGuard cfg p' (some k') st with ⟨rh, stA⟩
    rw [hh] at h
    cases rh with
    | error e => simp at h
    | ok b =>
      have hA : stA.passedEnv = (k', b) :: st.passedEnv := srvPushGuard_some_ok hh
      simp only at h
      rcases hr : envPhaseG (srvPushGuard cfg) rest stA with ⟨rr, st2⟩
      rw [hr] at h
      cases rr with
      | error e => simp at h
      | ok bs =>
        simp only at h
        injection h with h1 h2
        rcases List.mem_cons.mp hmem with hhead | htail
        · have hk : k = k' := congrArg Prod.fst hhead
          have hp : p' = Param.strParam s := (congrArg Prod.snd hhead).symm
          subst hk
          subst hp
          have hb : b = s := by
            unfold srvPushGuard at hh
            simp only [srvResolve] at hh
            injection hh with hh1 hh2
            injection hh1 with hh3
            exact hh3.symm
          have hknotin : k ∉ rest.map Prod.fst := by
            simp only [List.map_cons, List.nodup_cons] at hnd
            exact hnd.1
          obtain ⟨pre, hpre, hkeys⟩ := srvEnvPhase_extends cfg rest stA (.ok bs) st2 hr
          have hkpre : k ∉ pre.map Prod.fst := by
            intro hkin
            rcases List.mem_map.mp hkin with ⟨kv, hkv, hkveq⟩
            exact hknotin (hkveq ▸ hkeys kv hkv)
          rw [← h2, hpre, alookup_append_of_not_mem pre _ k hkpre, hA]
          simp [alookup, hb]
        · have hnd' : (rest.map Prod.fst).Nodup := by
            simp only [List.map_cons, List.nodup_cons] at hnd
            exact hnd.2
          rw [← h2]
          exact ih stA bs st2 hr hnd' k s htail

theorem FormatArgs.listInduction (motive : FormatArgs → Prop)
    (h0 : motive .nil)
    (h1 : ∀ (k : String) (v : Param) (rest : FormatArgs), motive rest → motive (.cons k v rest)) :
    ∀ l, motive l := by
  have aux : ∀ (n : Nat) (l : FormatArgs), sizeOf l ≤ n → motive l := by
    intro n
    induction n with
    | zero => intro l hl; exfalso; cases l <;> simp at hl
    | succ n ih =>
      intro l hl
      cases l with
      | nil => exact h0
      | cons k v rest =>
        refine h1 k v rest (ih rest ?_)
        simp at hl
        omega
  exact fun l => aux (sizeOf l) l le_rfl

theorem srvResolveArgs_eq_resolveAll (cfg : ServerCfg) :
    ∀ (l : FormatArgs) (st : ServerState),
      srvResolveArgs cfg l st = resolveAllG (srvResolve cfg) l.values st := by
  intro l
  induction l using FormatArgs.listInduction with
  | h0 => intro st; rfl
  | h1 k p rest ih =>
    intro st
    simp only [srvResolveArgs, FormatArgs.values, resolveAllG]
    rcases h1 : srvResolve cfg p st with ⟨r, st1⟩
    simp only
    rw [ih st1]

theorem formatArgs_zip_forall2 :
    ∀ (l : FormatArgs) (ws : List String) (R : Param → String → Prop),
      List.Forall₂ R l.values ws →
      List.Forall₂
        (fun (kv : String × Param) (rkv : String × String) =>
          rkv.1 = kv.1 ∧ R kv.2 rkv.2)
        l.toList (l.keys.zip ws) := by
  intro l
  induction l using FormatArgs.listInduction with
  | h0 =>
    intro ws R h
    simp only [FormatArgs.values] at h
    rw [List.forall₂_nil_left_iff] at h
    subst h
    exact List.Forall₂.nil
  | h1 k v rest ih =>
    intro ws R h
    simp only [FormatArgs.values] at h
    cases h with
    | cons hv hrest =>
      exact List.Forall₂.cons ⟨rfl, hv⟩ (ih _ R hrest)

/-- The per-leaf resolution property used for the passed-env claim: an
`Env{k}` leaf resolves to `s`, and a `Format` leaf resolves to the
rendering of its template over an argument map whose keys are
preserved and whose `Env{k}` entries are bound to `s`. -/
def envRefResolved (k s : String) (p : Param) (w : String) : Prop :=
  (p = Param.envParam k → w = s) ∧
  (∀ tmpl fargs, p = Param.formatParam tmpl fargs →
    ∃ rargs, strfmtList tmpl rargs = .ok w ∧
      List.Forall₂
        (fun (kv : String × Param) (rkv : String × String) =>
          rkv.1 = kv.1 ∧ (kv.2 = Param.envParam k → rkv.2 = s))
        fargs.toList rargs)

theorem srvResolve_envRef {cfg : ServerCfg} {k s : String}
    {PE : List (String × String)} (hos : cfg.osEnv k = none)
    (hPE : alookup PE k = some s) :
    ∀ (p : Param) (st : ServerState) (w : String) (st' : ServerState),
      st.passedEnv = PE → srvResolve cfg p st = (.ok w, st') →
      (p = Param.envParam k → w = s) := by
  intro p st w st' hst h hp
  subst hp
  simp only [srvResolve] at h
  injection h with h1 h2
  injection h1 with h3
  rw [← h3, hst, hPE, hos]
  rfl

theorem srvResolve_mainR {cfg : ServerCfg} {k s : String}
    {PE : List (String × String)} (hos : cfg.osEnv k = none)
    (hPE : alookup PE k = some s) :
    ∀ (p : Param) (st : ServerState) (w : String) (st' : ServerState),
      st.passedEnv = PE → srvResolve cfg p st = (.ok w, st') →
      envRefResolved k s p w := by
  intro p st w st' hst h
  constructor
  · exact srvResolve_envRef hos hPE p st w st' hst h
  · intro tmpl fargs hp
    subst hp
    simp only [srvResolve] at h
    rcases hargs : srvResolveArgs cfg fargs st with ⟨r, st1⟩
    rw [hargs] at h
    cases r with
    | error e => simp at h
    | ok ws =>
      simp only at h
      rcases hfmt : strfmtList tmpl (fargs.keys.zip ws) with e | out
      · rw [hfmt] at h; simp at h
      · rw [hfmt] at h
        simp only at h
        injection h with h1 h2
        injection h1 with h3
        refine ⟨fargs.keys.zip ws, h3 ▸ hfmt, ?_⟩
        have hres : resolveAllG (srvResolve cfg) fargs.values st = (.ok ws, st1) := by
          rw [← srvResolveArgs_eq_resolveAll]
          exact hargs
        have hforall : List.Forall₂ (fun p w => p = Param.envParam k → w = s) fargs.values ws := by
          refine resolveAllG_forall2 (srvResolve cfg)
            (fun stx => stx.passedEnv = PE)
            (fun a stx hx => ?_)
            (fun p w => p = Param.envParam k → w = s)
            (fun a stx b stx' hx hab => srvResolve_envRef hos hPE a stx b stx' hx hab)
            fargs.values st ws st1 hst hres
          show ((srvResolve cfg a stx).2).passedEnv = PE
          rw [srvResolve_passedEnv]
          exact hx
        exact formatArgs_zip_forall2 fargs ws _ hforall

theorem forall2_append_left_drop {α β : Type} {R : α → β → Prop} {x y : List α} {l : List β}
    (h : List.Forall₂ R (x ++ y) l) : List.Forall₂ R y (l.drop x.length) := by
  have h1 : List.Forall₂ (flip R) l (x ++ y) := List.Forall₂.flip h
  have h2 := List.forall₂_drop_append l x y h1
  exact List.Forall₂.flip h2

/-- C5: on the server end the env map is resolved first and recorded in
the passed-env map, Env resolution consults the OS environment first and
the passed-env map second (else the empty string), and consequently an
env entry `k` bound to `Str s` and absent from the OS environment makes
every `Env k` reference in args, stdout, stderr, or directly inside a
Format argument map, resolve to `s` in the produced RunRecipe. -/
theorem c5_passed_env_resolution (cfg : ServerCfg) (req : RunRequest) (recipe : RunRecipe)
    (st' : ServerState) (m : List (String × Param)) (k s : String)
    (hrun : srvTransformRequest cfg req stS0 = (.ok recipe, st'))
    (henv : req.env = some m)
    (hmem : (k, Param.strParam s) ∈ m)
    (hnodup : (m.map Prod.fst).Nodup)
    (hos : cfg.osEnv k = none) :
    alookup st'.passedEnv k = some s
    ∧ (∀ (n : String) (st0 : ServerState),
        srvResolve cfg (.envParam n) st0
          = (.ok ((cfg.osEnv n).getD ((alookup st0.passedEnv n).getD "")), srvPushG .plain st0))
    ∧ recipe.args.length = req.args.length
    ∧ (∀ (i : Nat) (hi : i < req.args.length) (hi' : i < recipe.args.length),
        req.args.get ⟨i, hi⟩ = Param.envParam k → recipe.args.get ⟨i, hi'⟩ = s)
    ∧ (req.stdout = some (Param.envParam k) → recipe.stdout = some s)
    ∧ (req.stderr = some (Param.envParam k) → recipe.stderr = some s)
    ∧ (∀ (i : Nat) (hi : i < req.args.length) (hi' : i < recipe.args.length)
        (tmpl : String) (fargs : FormatArgs),
        req.args.get ⟨i, hi⟩ = Param.formatParam tmpl fargs →
        ∃ rargs, strfmtList tmpl rargs = .ok (recipe.args.get ⟨i, hi'⟩)
          ∧ List.Forall₂ (fun (kv : String × Param) (rkv : String × String) =>
              rkv.1 = kv.1 ∧ (kv.2 = Param.envParam k → rkv.2 = s)) fargs.toList rargs) := by
  simp only [srvTransformRequest, guardRunArgsG] at hrun
  rw [henv] at hrun
  simp only at hrun
  rcases henvp : envPhaseG (srvPushGuard cfg) m stS0 with ⟨re, st1⟩
  rw [henvp] at hrun
  cases re with
  | error e => simp at hrun
  | ok wrapped =>
    simp only at hrun
    rcases hall : resolveAllG (fun a => srvPushGuard cfg a none)
        (req.command :: (req.stdout.toList ++ req.stderr.toList ++ req.args)) st1
      with ⟨ra, st2⟩
    rw [hall] at hrun
    cases ra with
    | error e => simp at hrun
    | ok vs =>
      cases vs with
      | nil => simp at hrun
      | cons c rest =>
        simp only at hrun
        have hrest1 : (if req.stdout.isSome then rest.drop 1 else rest)
            = rest.drop req.stdout.toList.length := by
          cases req.stdout <;> simp
        rw [hrest1] at hrun
        have hrest2 : (if req.stderr.isSome
              then (rest.drop req.stdout.toList.length).drop 1
              else rest.drop req.stdout.toList.length)
            = (rest.drop req.stdout.toList.length).drop req.stderr.toList.length := by
          cases req.stderr <;> simp
        rw [hrest2] at hrun
        injection hrun with h1 h2
        injection h1 with h3
        subst h3
        subst h2
        have hlook1 : alookup st1.passedEnv k = some s :=
          srvEnvPhase_lookup cfg m stS0 wrapped st1 henvp hnodup k s hmem
        have hfPE : ∀ (a : Param) (stx : ServerState),
            stx.passedEnv = st1.passedEnv →
            ((srvPushGuard cfg a none stx).2).passedEnv = st1.passedEnv := by
          intro a stx hx
          rw [srvPushGuard_none, srvResolve_passedEnv]
          exact hx
        have hPE2 : st2.passedEnv = st1.passedEnv := by
          have := resolveAllG_state (fun a => srvPushGuard cfg a none)
            (fun stx => stx.passedEnv = st1.passedEnv) hfPE
            (req.command :: (req.stdout.toList ++ req.stderr.toList ++ req.args)) st1 rfl
          rwa [hall] at this
        have hF : List.Forall₂ (envRefResolved k s)
            (req.command :: (req.stdout.toList ++ req.stderr.toList ++ req.args))
            (c :: rest) := by
          refine resolveAllG_forall2 (fun a => srvPushGuard cfg a none)
            (fun stx => stx.passedEnv = st1.passedEnv) hfPE
            (envRefResolved k s)
            (fun a stx b stx' hx hab => ?_) _ st1 _ st2 rfl hall
          have hab2 : srvPushGuard cfg a none stx = (.ok b, stx') := hab
          rw [srvPushGuard_none] at hab2
          exact srvResolve_mainR hos hlook1 a stx b stx' hx hab2
        have htail : List.Forall₂ (envRefResolved k s)
            (req.stdout.toList ++ req.stderr.toList ++ req.args) rest := by
          cases hF with
          | cons _ ht => exact ht
        have htail2 : List.Forall₂ (envRefResolved k s)
            (req.stderr.toList ++ req.args) (rest.drop req.stdout.toList.length) := by
          have := forall2_append_left_drop (x := req.stdout.toList)
            (y := req.stderr.toList ++ req.args) (l := rest) (by rwa [← List.append_assoc])
          exact this
        have hargsF : List.Forall₂ (envRefResolved k s) req.args
            ((rest.drop req.stdout.toList.length).drop req.stderr.toList.length) :=
          forall2_append_left_drop (x := req.stderr.toList) htail2
        refine ⟨?_, fun n st0 => rfl, ?_, ?_, ?_, ?_, ?_⟩
        · rw [hPE2]
          exact hlook1
        · exact hargsF.length_eq.symm
        · intro i hi hi' heq
          exact (hargsF.get hi hi').1 heq
        · intro hso
          rw [hso] at htail
          simp only [Option.toList_some, List.singleton_append, List.cons_append] at htail
          cases htail with
          | cons hv _ =>
            simp only [hso, Option.isSome_some, if_pos, List.head?_cons]
            rw [hv.1 rfl]
        · intro hse
          rw [hse] at htail2
          simp only [Option.toList_some, List.singleton_append] at htail2
          rcases hdrop : rest.drop req.stdout.toList.length with _ | ⟨v, rest'⟩
          · rw [hdrop] at htail2
            cases htail2
          · rw [hdrop] at htail2
            cases htail2 with
            | cons hv _ =>
              simp only [hse, Option.isSome_some, if_pos, hdrop, List.head?_cons]
              rw [hv.1 rfl]
        · intro i hi hi' tmpl fargs heq
          exact ((hargsF.get hi hi').2) tmpl fargs heq

/-- C9 counterexample: as_cloud is not defined on all ten variants — on
`Str` (and every other non-file variant) it hits `unreachable!()`
(modelled by `none`), so no fixed point exists there. -/
theorem c9_as_cloud_counterexample :
    ¬ ∃ q, (Param.strParam "x").as_cloud = some q ∧ q.as_cloud = some q := by
  simp [Param.as_cloud]

/-- C9 amended: restricted to the four file variants, as_cloud is
defined, lands in a cloud variant preserving hostname and filepath, and
is idempotent; on the six non-file variants it panics. -/
theorem c9_as_cloud_amended (p : Param) (h : (p.is_local || p.is_cloud) = true) :
    ∃ q, p.as_cloud = some q ∧ q.as_cloud = some q ∧ q.is_cloud = true
      ∧ q.hostname = p.hostname ∧ q.filepath = p.filepath := by
  cases p <;>
    simp_all [Param.is_local, Param.is_cloud, Param.as_cloud, Param.hostname, Param.filepath]

/-- C9 witness: the amended theorem applied to a concrete local input
file. -/
theorem c9_witness :
    ((Param.inLocalFileParam "/a" "h").is_local || (Param.inLocalFileParam "/a" "h").is_cloud) = true
    ∧ ∃ q, (Param.inLocalFileParam "/a" "h").as_cloud = some q ∧ q.as_cloud = some q
        ∧ q.is_cloud = true ∧ q.hostname = (Param.inLocalFileParam "/a" "h").hostname
        ∧ q.filepath = (Param.inLocalFileParam "/a" "h").filepath :=
  ⟨rfl, c9_as_cloud_amended (Param.inLocalFileParam "/a" "h") rfl⟩

/-- C7 counterexample: a caller-supplied queue is not honoured for a
`Str` command — Client::run rejects the command variant outright. -/
theorem c7_queue_counterexample :
    selectQueue (Param.strParam "x") (some "q") ≠ .ok "q" := by
  intro h
  exact Except.noConfusion h

/-- C7 amended: the queue is the caller queue or the command name for
`CmdName`; the caller queue (mandatory) for `CmdPath`; every other
command variant fails even when a queue is supplied, and the failure
happens before anything is uploaded or sent. -/
theorem c7_queue_selection_amended :
    (∀ (name : String) (q : Option String),
      selectQueue (.cmdNameParam name) q = .ok (q.getD name))
    ∧ (∀ (path q : String), selectQueue (.cmdPathParam path) (some q) = .ok q)
    ∧ (∀ path : String, selectQueue (.cmdPathParam path) none
        = .error (.err "Queue should be specified when command is instance of CmdPathParam"))
    ∧ (∀ (p : Param) (q : Option String),
        (∀ n, p ≠ Param.cmdNameParam n) → (∀ s, p ≠ Param.cmdPathParam s) →
        selectQueue p q = .error (.err "Expect command in type of CmdNameParam or CmdPathParam"))
    ∧ (∀ (cfg : ClientCfg) (broker : String → Except RErr String) (ser : RunRequest → String)
        (de : String → Except RErr RunResponse) (req : RunRequest) (q : Option String) (e : RErr),
        selectQueue req.command q = .error e →
        clientRun cfg broker ser de req q = (.error e, stC0)) := by
  refine ⟨fun name q => rfl, fun path q => rfl, fun path => rfl, ?_, ?_⟩
  · intro p q h1 h2
    cases p with
    | cmdNameParam n => exact absurd rfl (h1 n)
    | cmdPathParam s => exact absurd rfl (h2 s)
    | _ => rfl
  · intro cfg broker ser de req q e h
    simp only [clientRun, h]
    rfl

/-- C7 witness: the amended theorem applied to a `Str` command with a
caller-supplied queue. -/
theorem c7_witness :
    selectQueue (Param.strParam "v") (some "q")
      = .error (.err "Expect command in type of CmdNameParam or CmdPathParam") :=
  c7_queue_selection_amended.2.2.2.1 (Param.strParam "v") (some "q")
    (fun n h => by cases h) (fun s h => by cases h)

/-- C8 counterexample: a child killed by a signal (`code()` is `None`)
is an outcome for which the server could not produce a code, yet the
wrapper reports return_code 0 with no exc rather than -1 with an exc —
the claimed biconditional fails. -/
theorem c8_exit_code_counterexample :
    ¬ (((wrapperResponse (.exited none)).return_code = -1
          ∧ (wrapperResponse (.exited none)).exc ≠ none)
        ↔ couldNotProduceCode (.exited none) = true) := by
  decide

/-- C8 amended: exit with code c maps to return_code c (as Ok, not an
error, even for non-zero c); a spawn failure maps to -1 with exc; and
a child terminated without an exit code maps to 0 with no exc
(`code().unwrap_or(0)`). -/
theorem c8_exit_code_amended :
    (∀ c : Int, wrapperResponse (.exited (some c)) = { return_code := c, exc := none })
    ∧ (∀ m : String, wrapperResponse (.spawnErr m) = { return_code := -1, exc := some m })
    ∧ wrapperResponse (.exited none) = { return_code := 0, exc := none }
    ∧ (∀ (cfg : ServerCfg) (c : Int),
        (srvInvokeTransformResponse cfg (realRunModel (.exited (some c))) stS0).1
          = .ok { return_code := c, exc := none }) :=
  ⟨fun c => rfl, fun m => rfl, rfl, fun cfg c => rfl⟩

theorem pairs_zip_forall2 {α β : Type} (R : α → β → Prop) :
    ∀ (l : List (String × α)) (ws : List β),
      List.Forall₂ R (l.map Prod.snd) ws →
      List.Forall₂
        (fun (kv : String × α) (rkv : String × β) => rkv.1 = kv.1 ∧ R kv.2 rkv.2)
        l ((l.map Prod.fst).zip ws) := by
  intro l
  induction l with
  | nil =>
    intro ws h
    rw [List.map_nil, List.forall₂_nil_left_iff] at h
    subst h
    exact List.Forall₂.nil
  | cons kv rest ih =>
    intro ws h
    rw [List.map_cons] at h
    cases h with
    | cons hv hrest => exact List.Forall₂.cons ⟨rfl, hv⟩ (ih _ hrest)

theorem forall2_mem_left {α β : Type} {R : α → β → Prop} :
    ∀ {l1 : List α} {l2 : List β}, List.Forall₂ R l1 l2 →
      ∀ {x : α}, x ∈ l1 → ∃ y, y ∈ l2 ∧ R x y := by
  intro l1 l2 h
  induction h with
  | nil => intro x hx; simp at hx
  | cons hab _ ih =>
    intro x hx
    rcases List.mem_cons.mp hx with rfl | hx'
    · exact ⟨_, List.mem_cons_self .., hab⟩
    · rcases ih hx' with ⟨y, hy, hxy⟩
      exact ⟨y, List.mem_cons_of_mem _ hy, hxy⟩

/-- C10: guard_hashmap_args preserves the key-to-value association —
the result has the same keys in the same order, each key is bound to
the transform of its original value, and every original binding (k, a)
yields a binding (k, f a) in the result. -/
theorem c10_guard_hashmap_assoc {α σ β : Type} (f : α → σ → Except RErr β × σ)
    (args : List (String × α)) (st : σ) (out : List (String × β)) (st' : σ)
    (h : guardHashmapArgs f args st = (.ok out, st')) :
    out.map Prod.fst = args.map Prod.fst
    ∧ List.Forall₂ (fun (kv : String × α) (rkv : String × β) =>
        rkv.1 = kv.1 ∧ ranOk f kv.2 rkv.2) args out
    ∧ (∀ (k : String) (a : α), (k, a) ∈ args → ∃ b, (k, b) ∈ out ∧ ranOk f a b) := by
  unfold guardHashmapArgs at h
  rcases hres : resolveAllG f (args.map Prod.snd) st with ⟨r, st1⟩
  rw [hres] at h
  cases r with
  | error e => simp at h
  | ok vs =>
    simp only at h
    injection h with h1 h2
    injection h1 with h3
    have hF : List.Forall₂ (ranOk f) (args.map Prod.snd) vs :=
      resolveAllG_forall2 f (fun _ => True) (fun _ _ _ => trivial) (ranOk f)
        (fun a stx b stx' _ hab => ⟨stx, stx', hab⟩) _ st _ st1 trivial hres
    have hlen : (args.map Prod.fst).length ≤ vs.length := by
      have := hF.length_eq
      simp only [List.length_map] at this ⊢
      omega
    have hzip : List.Forall₂
        (fun (kv : String × α) (rkv : String × β) => rkv.1 = kv.1 ∧ ranOk f kv.2 rkv.2)
        args ((args.map Prod.fst).zip vs) := pairs_zip_forall2 (ranOk f) args vs hF
    refine ⟨?_, ?_, ?_⟩
    · rw [← h3, List.map_fst_zip _ _ hlen]
    · rw [← h3]
      exact hzip
    · intro k a hmem
      rw [← h3]
      rcases forall2_mem_left hzip hmem with ⟨⟨k2, b⟩, hyin, hk2, hran⟩
      have hk2' : k2 = k := hk2
      exact ⟨b, hk2' ▸ hyin, hran⟩

/-- C10 witness: the association theorem applied to a concrete
stateless transformer over a two-entry map. -/
theorem c10_witness :
    ([("x", 2), ("y", 3)] : List (String × Nat)).map Prod.fst
      = ([("x", 1), ("y", 2)] : List (String × Nat)).map Prod.fst :=
  (c10_guard_hashmap_assoc (fun (n : Nat) (st : Unit) => (.ok (n + 1), st))
    [("x", 1), ("y", 2)] () [("x", 2), ("y", 3)] () rfl).1

/-- C3 counterexample: the client-end invoke stage does not map
`RemoteEnv{X}` to itself — its RemoteEnvGuard::enter returns
`Env{X}`. -/
theorem c3_remote_env_counterexample :
    (cliResolve cfgC0 (Param.remoteEnvParam "X") stC0).1 ≠ .ok (Param.remoteEnvParam "X")
    ∧ (cliResolve cfgC0 (Param.remoteEnvParam "X") stC0).1 = .ok (Param.envParam "X") := by
  constructor
  · intro h
    have h2 : Param.envParam "X" = Param.remoteEnvParam "X" := by
      injection h
    cases h2
  · rfl

/-- C3 amended: the client-end invoke transform maps `RemoteEnv{name}`
to `Env{name}` (so the peer resolves it as an ordinary env lookup),
pushing a no-op guard; it is not passed through verbatim. -/
theorem c3_remote_env_amended (cfg : ClientCfg) (name : String) (st : ClientState) :
    cliResolve cfg (Param.remoteEnvParam name) st
      = (.ok (Param.envParam name), cliPush (Param.remoteEnvParam name) st) :=
  rfl

/-- C4 counterexample: the server-end guard_param has no arm for
`RemoteEnv` — it panics (`unreachable!("Unaccepted Param ...")`)
instead of resolving it the way `Env` is resolved (which here yields
the empty string without failing). -/
theorem c4_remote_env_counterexample :
    (srvResolve cfgS0 (Param.remoteEnvParam "X") stS0).1
        = .error (.panicked "Unaccepted Param for server")
    ∧ (srvResolve cfgS0 (Param.envParam "X") stS0).1 = .ok "" := by
  exact ⟨rfl, rfl⟩

/-- C4 amended: a `RemoteEnv` param reaching the server-end invoke
middleware panics with "Unaccepted Param" (as do the local-file
variants); it is not resolved like `Env`.  Through the normal pipeline
this variant never reaches the server because the client end has
already rewritten `RemoteEnv{name}` into `Env{name}`. -/
theorem c4_remote_env_amended (cfg : ServerCfg) (name : String) (st : ServerState) :
    srvResolve cfg (Param.remoteEnvParam name) st
      = (.error (.panicked "Unaccepted Param for server"), st)
    ∧ (∀ (ccfg : ClientCfg) (cst : ClientState),
        (cliResolve ccfg (Param.remoteEnvParam name) cst).1 = .ok (Param.envParam name)) :=
  ⟨rfl, fun ccfg cst => rfl⟩

theorem cliExit_ok_iff (cfg : ClientCfg) (g : Param) (st : ClientState) :
    (cliExit cfg g st).1 = .ok () ↔ cliExitOk cfg g = true := by
  cases g <;> simp only [cliExit, cliExitOk]
  case inLocalFileParam f h =>
    by_cases hd : cfg.deleteOk (cloudUrl h f) <;> simp [hd]
  case outLocalFileParam f h =>
    by_cases hdl : cfg.downloadOk (cloudUrl h f) <;>
      by_cases hd : cfg.deleteOk (cloudUrl h f) <;> simp [hdl, hd]

theorem cliExit_guards (cfg : ClientCfg) (g : Param) (st : ClientState) :
    ((cliExit cfg g st).2).guards = st.guards := by
  cases g <;> simp only [cliExit]
  case inLocalFileParam f h =>
    by_cases hd : cfg.deleteOk (cloudUrl h f) <;> simp [hd, cloudRemove]
  case outLocalFileParam f h =>
    by_cases hdl : cfg.downloadOk (cloudUrl h f) <;>
      by_cases hd : cfg.deleteOk (cloudUrl h f) <;> simp [hdl, hd, cloudRemove]

theorem cliExitAll_guards (cfg : ClientCfg) :
    ∀ (gs : List Param) (st : ClientState),
      ((cliExitAll cfg gs st).2).guards = st.guards := by
  intro gs
  induction gs with
  | nil => intro st; rfl
  | cons g rest ih =>
    intro st
    simp only [cliExitAll]
    rcases h1 : cliExit cfg g st with ⟨r, st1⟩
    rcases h2 : cliExitAll cfg rest st1 with ⟨rs, st2⟩
    simp only
    have e1 : st1.guards = st.guards := by
      have := cliExit_guards cfg g st
      rwa [h1] at this
    have e2 : st2.guards = st1.guards := by
      have := ih st1
      rwa [h2] at this
    rw [e2, e1]

theorem cliExitAll_ok_iff (cfg : ClientCfg) :
    ∀ (gs : List Param) (st : ClientState),
      (cliExitAll cfg gs st).1 = .ok () ↔ ∀ g ∈ gs, cliExitOk cfg g = true := by
  intro gs
  induction gs with
  | nil => intro st; simp [cliExitAll]
  | cons g rest ih =>
    intro st
    simp only [cliExitAll]
    rcases h1 : cliExit cfg g st with ⟨r, st1⟩
    rcases h2 : cliExitAll cfg rest st1 with ⟨rs, st2⟩
    simp only
    have hg : r = .ok () ↔ cliExitOk cfg g = true := by
      have := cliExit_ok_iff cfg g st
      rwa [h1] at this
    have hrest : rs = .ok () ↔ ∀ g' ∈ rest, cliExitOk cfg g' = true := by
      have := ih st1
      rwa [h2] at this
    constructor
    · intro hcomb
      have hro : r = .ok () ∧ rs = .ok () := by
        cases r with
        | ok u => cases rs with
          | ok u2 => exact ⟨by simp, by simp⟩
          | error e => simp at hcomb
        | error e => simp at hcomb
      intro g' hg'
      rcases List.mem_cons.mp hg' with rfl | hmem
      · exact hg.mp hro.1
      · exact (hrest.mp hro.2) g' hmem
    · intro hall
      have h1' : r = .ok () := hg.mpr (hall g (List.mem_cons_self ..))
      have h2' : rs = .ok () := hrest.mpr (fun g' hmem => hall g' (List.mem_cons_of_mem _ hmem))
      rw [h1', h2']

/-- Client oracles whose delete-from-cloud always fails (uploads and
downloads succeed). -/
def cfgNoDel : ClientCfg :=
  { osEnv := fun _ => none, uploadOk := fun _ => true,
    downloadOk := fun _ => true, deleteOk := fun _ => false }

/-- A client state holding one entered `InLocalFile` guard and its
cloud residue. -/
def stInGuard : ClientState :=
  { guards := [Param.inLocalFileParam "/a" "h"], cloud := [cloudUrl "h" "/a"],
    taskSent := true }

/-- A client state holding one entered `OutLocalFile` guard and its
cloud copy. -/
def stOutGuard : ClientState :=
  { guards := [Param.outLocalFileParam "/o" "h"], cloud := [cloudUrl "h" "/o"],
    taskSent := true }

/-- A successful zero response. -/
def respZero : RunResponse := { return_code := 0, exc := none }

/-- C6 counterexample: a delete-from-cloud failure during the exit of
an `InLocalFile` guard is not swallowed — transform_response turns the
successful response into an error (and the residue stays on the
cloud). -/
theorem c6_exit_counterexample :
    cliInvokeTransformResponse cfgNoDel (.ok respZero) stInGuard
      = (.error (.err "delete failed"),
         { guards := [], cloud := [cloudUrl "h" "/a"], taskSent := true }) :=
  rfl

/-- C6 amended: transform_response pops and exits every pushed guard;
the response is returned unchanged exactly when every exit succeeds,
where an `OutLocalFile` exit succeeds iff its download succeeds (a
delete-from-cloud failure is swallowed for it), while an `InLocalFile`
exit succeeds only if its delete succeeds (a delete failure is
surfaced as an error, overriding a successful response). -/
theorem c6_exit_semantics_amended (cfg : ClientCfg) (st : ClientState) (resp : RunResponse) :
    ((cliPopAllGuards cfg st).2).guards = []
    ∧ ((∀ g ∈ st.guards, cliExitOk cfg g = true) →
        cliInvokeTransformResponse cfg (.ok resp) st = (.ok resp, (cliPopAllGuards cfg st).2))
    ∧ ((∃ g ∈ st.guards, cliExitOk cfg g = false) →
        ∃ e, cliInvokeTransformResponse cfg (.ok resp) st
          = (.error e, (cliPopAllGuards cfg st).2)) := by
  refine ⟨?_, ?_, ?_⟩
  · simp only [cliPopAllGuards]
    rw [cliExitAll_guards]
  · intro hall
    simp only [cliInvokeTransformResponse, cliPopAllGuards]
    rcases hp : cliExitAll cfg st.guards.reverse { st with guards := [] } with ⟨r, st1⟩
    have hok : r = .ok () := by
      have := (cliExitAll_ok_iff cfg st.guards.reverse { st with guards := [] }).mpr
        (fun g hmem => hall g (List.mem_reverse.mp hmem))
      rwa [hp] at this
    rw [hok]
  · intro hex
    simp only [cliInvokeTransformResponse, cliPopAllGuards]
    rcases hp : cliExitAll cfg st.guards.reverse { st with guards := [] } with ⟨r, st1⟩
    have hnotok : ¬ r = .ok () := by
      intro hok
      have := (cliExitAll_ok_iff cfg st.guards.reverse { st with guards := [] }).mp
        (hp ▸ hok : (cliExitAll cfg st.guards.reverse { st with guards := [] }).1 = .ok ())
      rcases hex with ⟨g, hmem, hfalse⟩
      have := this g (List.mem_reverse.mpr hmem)
      rw [this] at hfalse
      cases hfalse
    cases r with
    | ok u => exact absurd rfl hnotok
    | error e => exact ⟨e, rfl⟩

/-- C6 witness: the amended theorem applied to a stack holding one
`OutLocalFile` guard whose delete fails but whose download succeeds —
the delete failure is swallowed and the response survives. -/
theorem c6_witness :
    (∀ g ∈ stOutGuard.guards, cliExitOk cfgNoDel g = true)
    ∧ cliInvokeTransformResponse cfgNoDel (.ok respZero) stOutGuard
      = (.ok respZero, (cliPopAllGuards cfgNoDel stOutGuard).2) := by
  have hall : ∀ g ∈ stOutGuard.guards, cliExitOk cfgNoDel g = true := by
    intro g hg
    simp only [stOutGuard, List.mem_singleton] at hg
    subst hg
    rfl
  exact ⟨hall, (c6_exit_semantics_amended cfgNoDel stOutGuard respZero).2.1 hall⟩

/-- The parse outcome of a task payload that is not valid RunRequest
JSON (what serde_json::from_str returns on a malformed string such as
an empty or truncated payload). -/
def badParse : Except RErr RunRequest := .error (.err "expected value at line 1 column 1")

/-- A request whose command is just a palette name. -/
def reqCmdOnly : RunRequest := { command := Param.cmdNameParam "sh", args := [] }

/-- C1: when the serde middleware transform_request (deserialization)
fails, the expanded apply_middles macro skips the transform_response
of that same middleware, so the error is never embedded into a serialized
RunResponse; it reaches the final `.expect` in Server::run, and the
server task panics instead of returning a string.  By contrast a
failure in any later stage (here: the process launch) is embedded as
return_code -1 with the message in exc. -/
theorem c1_server_error_embedding_bug :
    serverRun cfgS0 (fun _ => .ok 0) badParse
      = .error ("panicked: Unreachable: please embedding all the errors into serialization!: "
          ++ "expected value at line 1 column 1")
    ∧ serverRun cfgS0 (fun _ => .error (.err "spawn failed")) (.ok reqCmdOnly)
      = .ok "\x7b\"return_code\":-1,\"exc\":\"spawn failed\"\x7d" :=
  ⟨rfl, rfl⟩

/-- Client oracles for which uploading the second input file fails. -/
def cfgUpFail : ClientCfg :=
  { osEnv := fun _ => none, uploadOk := fun u => u != cloudUrl "h" "/b",
    downloadOk := fun _ => true, deleteOk := fun _ => true }

/-- A request carrying two local input files, the second of which will
fail to upload. -/
def reqTwoUploads : RunRequest :=
  { command := Param.cmdNameParam "sh",
    args := [Param.inLocalFileParam "/a" "h", Param.inLocalFileParam "/b" "h"] }

/-- C2: when the enter of a guard fails during the client invoke
transform_request, the expanded apply_middles macro returns the error
without running the transform_response of that middleware, so the guards
whose enter already succeeded are never exited: the error does
propagate and no task is sent, but the upload of the first input file
is left on the cloud (cloud list still holds its key) and its guard is
still on the stack. -/
theorem c2_client_cleanup_bug :
    clientRun cfgUpFail (fun _ => .ok "") (fun _ => "")
        (fun _ => .error (.err "no response")) reqTwoUploads none
      = (.error (.err "upload failed"),
         { guards := [Param.cmdNameParam "sh", Param.inLocalFileParam "/a" "h"],
           cloud := [cloudUrl "h" "/a"], taskSent := false }) :=
  rfl

/-- The passed-env scenario request: env binds PASSWORD to a literal,
and PASSWORD is referenced from args (directly and inside a Format)
and from stdout. -/
def reqPassedEnv : RunRequest :=
  { command := Param.cmdPathParam "/bin/sh",
    args := [Param.envParam "PASSWORD",
             Param.formatParam "\x7bp\x7d" (.cons "p" (Param.envParam "PASSWORD") .nil)],
    env := some [("PASSWORD", Param.strParam "pw")],
    stdout := some (Param.envParam "PASSWORD") }

/-- C5 witness: the passed-env theorem applied to the concrete
PASSWORD scenario; the final state maps PASSWORD to pw. -/
theorem c5_witness :
    alookup (srvTransformRequest cfgS0 reqPassedEnv stS0).2.passedEnv "PASSWORD"
      = some "pw" := by
  have h := c5_passed_env_resolution cfgS0 reqPassedEnv
    { command := "/bin/sh", args := ["pw", "pw"],
      env := some [("PASSWORD", "pw")], stdout := some "pw" }
    { passedEnv := [("PASSWORD", "pw")],
      guards := [.plain, .plain, .plain, .plain, .plain, .plain], tempCtr := 0 }
    [("PASSWORD", Param.strParam "pw")] "PASSWORD" "pw"
    rfl rfl (by simp) (by simp) rfl
  have heq : (srvTransformRequest cfgS0 reqPassedEnv stS0).2
      = { passedEnv := [("PASSWORD", "pw")],
          guards := [.plain, .plain, .plain, .plain, .plain, .plain], tempCtr := 0 } := rfl
  rw [heq]
  exact h.1
